import Mathlib

/-!
Verification development for the RAN quality evaluator repository.

The repository's visible sources are the web UI (`src/ui/src/App.tsx`,
`src/ui/src/api.ts`, `src/ui/src/components/Charts.tsx` and the unnamed UI
variants) plus the design documents (`RFP_Web_System_Spec.md`,
`IMPLEMENTATION_PLAN.md`).  The backend evaluation engine (window calculator,
pattern classifier, roll-up, period detector, change-event aggregator) lives
in Python scripts that are not part of the visible sources, so those
components are modelled here from the specification text; the UI-level
functions are embedded directly from the TypeScript sources.

Numbers are modelled as exact rationals (`ℚ`) for metric values and as
integers (`ℤ`) for day indices and timestamps.  JavaScript `NaN` results are
modelled as `Option.none`.
-/

namespace RanTool

/-! ## Pattern classifier (spec-modelled)

Modelled from the spec: the backend KPI pattern evaluation engine is not
under the visible sources.  `ChangeClass`, `Verdict`, `classify`, `delta`,
`verdictOf` and `metricVerdict` follow §3 and §4.3 of the spec.
-/

/-- Change Class of one delta: `{Increase, Stable, Decrease}`. -/
inductive ChangeClass where
  | Increase
  | Stable
  | Decrease
deriving DecidableEq, Repr

/-- Per-metric verdict: `{Pass, Fail, Restored, Inconclusive}`. -/
inductive Verdict where
  | Pass
  | Fail
  | Restored
  | Inconclusive
deriving DecidableEq, Repr

/-- Modelled from the spec: the Delta of two window means,
`ratio = (to_mean - from_mean) / max(|from_mean|, eps)` (§3, Delta). -/
def delta (a b eps : ℚ) : ℚ := (b - a) / max |a| eps

/-- Modelled from the spec: classification of a delta ratio against a
threshold (§3, Change Class): `Increase` if `ratio ≥ +threshold`,
`Decrease` if `ratio ≤ -threshold`, else `Stable`; conditions are tested
in the order the spec lists them. -/
def classify (r t : ℚ) : ChangeClass :=
  if t ≤ r then ChangeClass.Increase
  else if r ≤ -t then ChangeClass.Decrease
  else ChangeClass.Stable

/-- Modelled from the spec: the fixed verdict table over the 9 pattern
types (§4.3): the three types with a Before→After `Decrease` map to
Restored (DI), Fail (DS), Fail (DD); the remaining 6 types map to Pass
(the spec stresses that ID and SD are Pass despite the After→Last
decrease, and Scenario C of §8 exercises exactly the SD case). -/
def verdictOf (c1 c2 : ChangeClass) : Verdict :=
  match c1, c2 with
  | ChangeClass.Decrease, ChangeClass.Increase => Verdict.Restored
  | ChangeClass.Decrease, ChangeClass.Stable => Verdict.Fail
  | ChangeClass.Decrease, ChangeClass.Decrease => Verdict.Fail
  | _, _ => Verdict.Pass

/-- Modelled from the spec: per-metric verdict from the three window means
(§4.3): `Inconclusive` if any mean is undefined, otherwise the table
applied to the classes of `delta(before, after)` and `delta(after, last)`. -/
def metricVerdict (before after last : Option ℚ) (t eps : ℚ) : Verdict :=
  match before, after, last with
  | some a, some b, some c =>
      verdictOf (classify (delta a b eps) t) (classify (delta b c eps) t)
  | _, _, _ => Verdict.Inconclusive

/-- C1: for every metric whose two deltas are both defined (all three window
means present), the verdict is assigned by exactly the 9-case table: Pass
iff the Before→After class is not Decrease (covering II, IS, ID, SI, SS,
SD), Restored iff the pair is DI, and Fail iff the pair is DS or DD. -/
theorem metricVerdict_table (a b c t eps : ℚ) :
    (metricVerdict (some a) (some b) (some c) t eps = Verdict.Pass ↔
      classify (delta a b eps) t ≠ ChangeClass.Decrease) ∧
    (metricVerdict (some a) (some b) (some c) t eps = Verdict.Restored ↔
      classify (delta a b eps) t = ChangeClass.Decrease ∧
        classify (delta b c eps) t = ChangeClass.Increase) ∧
    (metricVerdict (some a) (some b) (some c) t eps = Verdict.Fail ↔
      classify (delta a b eps) t = ChangeClass.Decrease ∧
        (classify (delta b c eps) t = ChangeClass.Stable ∨
          classify (delta b c eps) t = ChangeClass.Decrease)) := by
  rcases h1 : classify (delta a b eps) t <;>
    rcases h2 : classify (delta b c eps) t <;>
      simp [metricVerdict, verdictOf, h1, h2]

/-- C2: for window means `a`, `b` and a (positive) threshold `t`, the class
of the delta ratio is Decrease iff the ratio is at most `-t` (inclusive),
Increase iff it is at least `+t` (inclusive), and Stable otherwise. -/
theorem classify_delta_boundaries (a b t eps : ℚ) (ht : 0 < t) :
    (classify (delta a b eps) t = ChangeClass.Decrease ↔ delta a b eps ≤ -t) ∧
    (classify (delta a b eps) t = ChangeClass.Increase ↔ t ≤ delta a b eps) ∧
    (classify (delta a b eps) t = ChangeClass.Stable ↔
      -t < delta a b eps ∧ delta a b eps < t) := by
  set r := delta a b eps with hr
  unfold classify
  split_ifs with hI hD
  all_goals try push_neg at hI
  all_goals try push_neg at hD
  all_goals refine ⟨?_, ?_, ?_⟩
  all_goals constructor
  all_goals intro h
  all_goals first
    | exact h.elim
    | trivial
    | linarith

/-- C2 witness: means 10 → 7 with threshold 5% classify as Decrease, and
the boundary facts hold at that concrete input. -/
theorem classify_delta_boundaries_at_example :
    (classify (delta 10 7 (1 / 1000000000)) (1 / 20) = ChangeClass.Decrease ↔
      delta 10 7 (1 / 1000000000) ≤ -(1 / 20)) ∧
    (classify (delta 10 7 (1 / 1000000000)) (1 / 20) = ChangeClass.Increase ↔
      (1 / 20) ≤ delta 10 7 (1 / 1000000000)) ∧
    (classify (delta 10 7 (1 / 1000000000)) (1 / 20) = ChangeClass.Stable ↔
      -(1 / 20) < delta 10 7 (1 / 1000000000) ∧
        delta 10 7 (1 / 1000000000) < 1 / 20) :=
  classify_delta_boundaries 10 7 (1 / 20) (1 / 1000000000) (by norm_num)

/-! ## Window calculator (spec-modelled)

Modelled from the spec: the backend window calculator is not under the
visible sources.  Dates are day numbers in `ℤ`; `calcWindows` follows §4.1
(`InvalidConfiguration` when `period ≤ 0` or `guard < 0`, otherwise the
three windows written out in §4.1 and in the RFP's Measure Ranges).
-/

/-- A date interval `[wFrom, wTo]`. -/
structure Window where
  wFrom : ℤ
  wTo : ℤ
deriving DecidableEq, Repr

/-- The three named windows of one evaluation. -/
structure Windows where
  before : Window
  after : Window
  last : Window
deriving DecidableEq, Repr

/-- Validation error of the window calculator (§4.1, §7). -/
inductive EvalError where
  | InvalidConfiguration
deriving DecidableEq, Repr

/-- Modelled from the spec: the Window Calculator of §4.1. -/
def calcWindows (inputDate period guard maxDate : ℤ) : Except EvalError Windows :=
  if period ≤ 0 ∨ guard < 0 then Except.error EvalError.InvalidConfiguration
  else Except.ok
    { before := { wFrom := inputDate - guard - period, wTo := inputDate - guard }
      after := { wFrom := inputDate + guard, wTo := inputDate + guard + period }
      last := { wFrom := maxDate - period, wTo := maxDate } }

/-- C3: with `period > 0` and `guard ≥ 0` the Window Calculator returns
exactly `before = [input - guard - period, input - guard]`,
`after = [input + guard, input + guard + period]`,
`last = [max_date - period, max_date]`. -/
theorem calcWindows_eq (inputDate period guard maxDate : ℤ)
    (hp : 0 < period) (hg : 0 ≤ guard) :
    calcWindows inputDate period guard maxDate = Except.ok
      { before := { wFrom := inputDate - guard - period, wTo := inputDate - guard }
        after := { wFrom := inputDate + guard, wTo := inputDate + guard + period }
        last := { wFrom := maxDate - period, wTo := maxDate } } := by
  unfold calcWindows
  rw [if_neg]
  push_neg
  omega

/-- C3 witness: the windows at `input_date = 100`, `period = 7`,
`guard = 7`, `max_date = 130`. -/
theorem calcWindows_eq_at_example :
    calcWindows 100 7 7 130 = Except.ok
      { before := { wFrom := 86, wTo := 93 }
        after := { wFrom := 107, wTo := 114 }
        last := { wFrom := 123, wTo := 130 } } :=
  calcWindows_eq 100 7 7 130 (by norm_num) (by norm_num)

/-- C4 counterexample: at `input_date = 0`, `period = 1`, `guard = 0`,
`max_date = 0` (a valid configuration) the computed windows violate
`After.to ≤ Last.from`: `after.wTo = 1` but `last.wFrom = -1`. -/
theorem calcWindows_invariant_counterexample :
    (calcWindows 0 1 0 0).map (fun w => decide (w.after.wTo ≤ w.last.wFrom)) =
      Except.ok false := rfl

/-- C4 (amended): for every valid configuration (`period > 0`, `guard ≥ 0`)
the windows satisfy `Before.to ≤ After.from`, and they satisfy
`After.to ≤ Last.from` whenever additionally
`max_date ≥ input_date + guard + 2·period`; for smaller `max_date` the
second invariant can fail (see the counterexample). -/
theorem calcWindows_invariants (inputDate period guard maxDate : ℤ) (w : Windows)
    (hp : 0 < period) (hg : 0 ≤ guard)
    (hw : calcWindows inputDate period guard maxDate = Except.ok w) :
    w.before.wTo ≤ w.after.wFrom ∧
      (inputDate + guard + 2 * period ≤ maxDate → w.after.wTo ≤ w.last.wFrom) := by
  rw [calcWindows_eq inputDate period guard maxDate hp hg] at hw
  cases hw
  constructor
  · simp only []
    omega
  · intro hm
    simp only []
    omega

/-- C4 witness: at `input_date = 100`, `period = 7`, `guard = 7`,
`max_date = 130` both ordering invariants hold. -/
theorem calcWindows_invariants_at_example :
    ({ wFrom := 86, wTo := 93 } : Window).wTo ≤
        ({ wFrom := 107, wTo := 114 } : Window).wFrom ∧
      ((100 : ℤ) + 7 + 2 * 7 ≤ 130 →
        ({ wFrom := 107, wTo := 114 } : Window).wTo ≤
          ({ wFrom := 123, wTo := 130 } : Window).wFrom) :=
  calcWindows_invariants 100 7 7 130
    { before := { wFrom := 86, wTo := 93 }
      after := { wFrom := 107, wTo := 114 }
      last := { wFrom := 123, wTo := 130 } }
    (by norm_num) (by norm_num) calcWindows_eq_at_example

/-! ## Evaluation roll-up (spec-modelled)

Modelled from the spec: the backend roll-up is not under the visible
sources.  `rollup` follows §4.4: `Inconclusive` only if every metric is
`Inconclusive`; otherwise `Fail` if at least one verdict is `Fail` (mixed
Fail+Restored gives Fail), `Restored` if at least one verdict is `Restored`
and the rest are Pass or Inconclusive, else `Pass` (Inconclusive metrics
are ignored when deciding Pass).
-/

/-- Modelled from the spec: the Evaluation Roll-up of §4.4. -/
def rollup (vs : List Verdict) : Verdict :=
  if vs.all (fun v => decide (v = Verdict.Inconclusive)) then Verdict.Inconclusive
  else if vs.any (fun v => decide (v = Verdict.Fail)) then Verdict.Fail
  else if vs.any (fun v => decide (v = Verdict.Restored)) then Verdict.Restored
  else Verdict.Pass

/-- `List.all` is invariant under permutation. -/
theorem perm_all {α : Type} (p : α → Bool) {l l' : List α} (h : l.Perm l') :
    l.all p = l'.all p := by
  cases ha : l'.all p
  · rw [Bool.eq_false_iff]
    intro hc
    rw [List.all_eq_true] at hc
    rw [Bool.eq_false_iff] at ha
    exact ha (List.all_eq_true.mpr (fun x hx => hc x (h.mem_iff.mpr hx)))
  · exact List.all_eq_true.mpr (fun x hx => List.all_eq_true.mp ha x (h.mem_iff.mp hx))

/-- `List.any` is invariant under permutation. -/
theorem perm_any {α : Type} (p : α → Bool) {l l' : List α} (h : l.Perm l') :
    l.any p = l'.any p := by
  cases ha : l'.any p
  · rw [Bool.eq_false_iff]
    intro hc
    rw [List.any_eq_true] at hc
    obtain ⟨x, hx, hpx⟩ := hc
    rw [Bool.eq_false_iff] at ha
    exact ha (List.any_eq_true.mpr ⟨x, h.mem_iff.mp hx, hpx⟩)
  · rw [List.any_eq_true] at ha ⊢
    obtain ⟨x, hx, hpx⟩ := ha
    exact ⟨x, h.mem_iff.mpr hx, hpx⟩

/-- C5: permuting a non-empty list of metric verdicts does not change the
overall Evaluation Result of the roll-up. -/
theorem rollup_perm_invariant (l l' : List Verdict) (_hne : l ≠ [])
    (h : l.Perm l') : rollup l = rollup l' := by
  unfold rollup
  rw [perm_all _ h, perm_any _ h, perm_any _ h]

/-- C5 witness: a concrete permutation of `[Pass, Fail, Restored]` yields
the same roll-up result. -/
theorem rollup_perm_invariant_at_example :
    rollup [Verdict.Pass, Verdict.Fail, Verdict.Restored] =
      rollup [Verdict.Restored, Verdict.Pass, Verdict.Fail] :=
  rollup_perm_invariant [Verdict.Pass, Verdict.Fail, Verdict.Restored]
    [Verdict.Restored, Verdict.Pass, Verdict.Fail]
    (by decide) (by decide)

/-! ## Period detector (spec-modelled)

Modelled from the spec: the backend period-detection SQL
(`insert_db_lte_cell_period.py` / `insert_db_umts_cell_period.py`) is not
under the visible sources.  §4.5 describes gap/island grouping per
`(cell_id, vendor)`: equal run id ⇔ contiguous date sequence, grouped to
`min(date)`/`max(date)`/`count`, discarding groups with `count < min_run`.
`runs` realises exactly that grouping on a date-sorted activity list, and
`detectPeriods` applies the `min_run` filter.  A period is a triple
`(init_date, end_date, length_days)`.
-/

/-- The block of `k` consecutive days starting at `s`: `[s, …, s + k - 1]`. -/
def blk (s : ℤ) : ℕ → List ℤ
  | 0 => []
  | k + 1 => s :: blk (s + 1) k

/-- Grouping helper: `start`, `last` and `cnt` describe the run currently
being accumulated; a day equal to `last + 1` extends it, anything else
closes it and opens a new run. -/
def runsAux (start last : ℤ) (cnt : ℕ) : List ℤ → List (ℤ × ℤ × ℕ)
  | [] => [(start, last, cnt)]
  | d :: rest =>
      if d = last + 1 then runsAux start d (cnt + 1) rest
      else (start, last, cnt) :: runsAux d d 1 rest

/-- Modelled from the spec: the maximal contiguous runs of a date-sorted
activity list, each as `(min date, max date, count)` (§4.5). -/
def runs : List ℤ → List (ℤ × ℤ × ℕ)
  | [] => []
  | d :: rest => runsAux d d 1 rest

/-- Modelled from the spec: the Period Detector (§4.5): maximal runs with
`count < min_run` discarded. -/
def detectPeriods (l : List ℤ) (minRun : ℕ) : List (ℤ × ℤ × ℕ) :=
  (runs l).filter (fun p => decide (minRun ≤ p.2.2))

/-- A contiguous block extends the run being accumulated day by day. -/
theorem runsAux_blk (k : ℕ) : ∀ (start last : ℤ) (cnt : ℕ) (l₂ : List ℤ),
    runsAux start last cnt (blk (last + 1) k ++ l₂) =
      runsAux start (last + k) (cnt + k) l₂ := by
  induction k with
  | zero =>
      intro start last cnt l₂
      simp [blk]
  | succ k ih =>
      intro start last cnt l₂
      show runsAux start last cnt ((last + 1) :: (blk (last + 1 + 1) k ++ l₂)) = _
      rw [runsAux, if_pos rfl, ih start (last + 1) (cnt + 1) l₂]
      congr 1
      · push_cast
        ring
      · omega

/-- When the next day is not contiguous, the accumulated run is emitted. -/
theorem runsAux_close (start last : ℤ) (cnt : ℕ) (l₂ : List ℤ)
    (h : ∀ b, l₂.head? = some b → b ≠ last + 1) :
    runsAux start last cnt l₂ = (start, last, cnt) :: runs l₂ := by
  cases l₂ with
  | nil => rfl
  | cons b rest => rw [runsAux, if_neg (h b rfl), runs]

/-- `getD` after `getLast?` of a cons ignores the default. -/
theorem getLast?_getD_cons (a : ℤ) (rest : List ℤ) :
    ∀ d, ((a :: rest).getLast?).getD d = rest.getLast?.getD a := by
  induction rest generalizing a with
  | nil => intro d; rfl
  | cons c cs ih =>
      intro d
      rw [List.getLast?_cons_cons, ih c d, ih c a]

/-- A maximal block of `kp + 1` consecutive days surfaces as the run
`(s, s + kp, kp + 1)` no matter what precedes it. -/
theorem mem_runsAux_append (kp : ℕ) (s : ℤ) (l₂ : List ℤ)
    (h₂ : ∀ b, l₂.head? = some b → b ≠ s + ((kp : ℤ) + 1)) :
    ∀ (l₁ : List ℤ) (start last : ℤ) (cnt : ℕ),
      (l₁.getLast?.getD last) + 1 ≠ s →
      (s, s + kp, kp + 1) ∈ runsAux start last cnt (l₁ ++ blk s (kp + 1) ++ l₂) := by
  intro l₁
  induction l₁ with
  | nil =>
      intro start last cnt hgap
      simp only [List.getLast?, Option.getD] at hgap
      show (s, s + (kp : ℤ), kp + 1) ∈
        runsAux start last cnt ((s :: blk (s + 1) kp) ++ l₂)
      rw [List.cons_append, runsAux, if_neg (fun hc => hgap hc.symm),
        runsAux_blk kp s s 1 l₂,
        runsAux_close s (s + kp) (1 + kp) l₂
          (fun b hb => by have := h₂ b hb; omega),
        show 1 + kp = kp + 1 from by omega]
      exact List.mem_cons_of_mem _ (List.mem_cons_self _ _)
  | cons a rest ih =>
      intro start last cnt hgap
      rw [getLast?_getD_cons a rest last] at hgap
      show (s, s + (kp : ℤ), kp + 1) ∈
        runsAux start last cnt (a :: (rest ++ blk s (kp + 1) ++ l₂))
      rw [runsAux]
      split_ifs with hc
      · exact ih start a (cnt + 1) hgap
      · exact List.mem_cons_of_mem _ (ih a a 1 hgap)

/-- C6: a maximal run of `kp + 1` consecutive active days (nothing active
on the day before `s` nor on the day after `s + kp`) yields the period
`(s, s + kp, kp + 1)` in the detector's output exactly when its length
reaches `min_run`: with `kp + 1 = min_run` it always appears with
`length_days = min_run`, and with `kp + 1 = min_run - 1` it never does. -/
theorem detectPeriods_boundary (l₁ l₂ : List ℤ) (s : ℤ) (kp minRun : ℕ)
    (h₁ : ∀ a, l₁.getLast? = some a → a + 1 ≠ s)
    (h₂ : ∀ b, l₂.head? = some b → b ≠ s + ((kp : ℤ) + 1)) :
    ((s, s + (kp : ℤ), kp + 1) ∈
        detectPeriods (l₁ ++ blk s (kp + 1) ++ l₂) minRun ↔ minRun ≤ kp + 1) := by
  constructor
  · intro hmem
    have := List.mem_filter.mp hmem
    simpa using this.2
  · intro hmr
    apply List.mem_filter.mpr
    refine ⟨?_, by simpa using hmr⟩
    cases l₁ with
    | nil =>
        show (s, s + (kp : ℤ), kp + 1) ∈ runs ((s :: blk (s + 1) kp) ++ l₂)
        rw [List.cons_append, runs, runsAux_blk kp s s 1 l₂,
          runsAux_close s (s + kp) (1 + kp) l₂
            (fun b hb => by have := h₂ b hb; omega),
          show 1 + kp = kp + 1 from by omega]
        exact List.mem_cons_self _ _
    | cons a rest =>
        show (s, s + (kp : ℤ), kp + 1) ∈
          runsAux a a 1 (rest ++ blk s (kp + 1) ++ l₂)
        apply mem_runsAux_append kp s l₂ h₂ rest a a 1
        have := h₁ (rest.getLast?.getD a) ?_
        · exact this
        · rw [← getLast?_getD_cons a rest a]
          cases hr : (a :: rest).getLast? with
          | none => simp at hr
          | some x => simp [hr]

/-- C6 witness: with active days `[1, 2, 3] ++ [5, 6, 7] ++ [10]` and
`min_run = 3`, the maximal run `5..7` appears as the period `(5, 7, 3)`. -/
theorem detectPeriods_boundary_at_example :
    ((5, 5 + ((2 : ℕ) : ℤ), 2 + 1) ∈
        detectPeriods ([1, 2, 3] ++ blk 5 (2 + 1) ++ [10]) 3 ↔ 3 ≤ 2 + 1) :=
  detectPeriods_boundary [1, 2, 3] [10] 5 2 3
    (fun a ha => by
      have h3 : a = 3 := by simpa using ha.symm
      omega)
    (fun b hb => by
      have h10 : b = 10 := by simpa using hb.symm
      omega)

/-! ## Change-event aggregator (spec-modelled)

Modelled from the spec: the backend change-event scripts
(`insert_db_lte_cell_change.py` / `insert_db_umts_cell_change.py`) are not
under the visible sources.  §4.6: a cell is live on a day if the day falls
within one of its traffic-active periods; `added`/`removed`/`total` come
from comparing a day's live-cell set with the previous day's.
-/

/-- A traffic-active period of one cell (the `cell` field identifies the
`(cell_id, vendor)` pair). -/
structure CellPeriod where
  cell : ℕ
  initDate : ℤ
  endDate : ℤ
deriving DecidableEq, Repr

/-- Modelled from the spec: a cell is live on day `d` if `d` falls within
one of its periods (§4.6). -/
def liveOn (d : ℤ) (p : CellPeriod) : Bool :=
  decide (p.initDate ≤ d ∧ d ≤ p.endDate)

/-- Modelled from the spec: the set of cells of a site that are live on
day `d`, given the site's periods (§4.6). -/
def liveCells (ps : List CellPeriod) (d : ℤ) : Finset ℕ :=
  ((ps.filter (liveOn d)).map (fun p => p.cell)).toFinset

/-- Modelled from the spec: `total_count` on day `d` (§3, Cell Change
Event). -/
def totalCount (ps : List CellPeriod) (d : ℤ) : ℕ :=
  (liveCells ps d).card

/-- Modelled from the spec: `added_count` on day `d`: cells live on `d`
but not on `d - 1` (§4.6). -/
def addedCount (ps : List CellPeriod) (d : ℤ) : ℕ :=
  (liveCells ps d \ liveCells ps (d - 1)).card

/-- Modelled from the spec: `removed_count` on day `d`: cells live on
`d - 1` but not on `d` (§4.6). -/
def removedCount (ps : List CellPeriod) (d : ℤ) : ℕ :=
  (liveCells ps (d - 1) \ liveCells ps d).card

/-- C7: the accounting identity
`added_count - removed_count = total_count(d) - total_count(d - 1)` holds
for every site (list of cell periods) and every day, in particular on the
days for which a Cell Change Event is emitted; on the first day a site
appears the previous day's live set is empty, so its total is `0`. -/
theorem change_event_accounting (ps : List CellPeriod) (d : ℤ) :
    (addedCount ps d : ℤ) - removedCount ps d =
      (totalCount ps d : ℤ) - totalCount ps (d - 1) := by
  unfold addedCount removedCount totalCount
  have h1 := Finset.card_sdiff_add_card_inter (liveCells ps d) (liveCells ps (d - 1))
  have h2 := Finset.card_sdiff_add_card_inter (liveCells ps (d - 1)) (liveCells ps d)
  rw [Finset.inter_comm] at h2
  omega

/-! ## UI evaluation-option handlers (`src/ui/src/App.tsx`, `src/unnamed/part_004`)

The threshold, period and guard number inputs store their values via
`onChange` handlers:

* threshold: `Math.max(0, Math.min(1, (parseFloat(e.target.value) || 0) / 100))`
* period: `Math.max(1, Math.min(90, parseInt(e.target.value || '0', 10)))`
* guard: `Math.max(0, Math.min(90, parseInt(e.target.value || '0', 10)))`

`parseFloat`/`parseInt` are the JavaScript built-ins, modelled below over
exact rationals; a `NaN` result is `none`, and `Math.max`/`Math.min`
propagate `NaN`, which `Option.map` reproduces.  The finite JS double is
modelled as an exact rational; the unbounded-magnitude inputs (`Infinity`
literals) are out of scope of the rational model and parse to `none`.
-/

/-- JavaScript whitespace accepted by `parseInt`/`parseFloat`. -/
def isWsChar (c : Char) : Bool :=
  decide (c = ' ' ∨ c = '\t' ∨ c = '\n' ∨ c = '\r')

/-- Value of a digit string read in base 10. -/
def digitsVal (ds : List Char) : ℕ :=
  ds.foldl (fun acc c => 10 * acc + (c.toNat - '0'.toNat)) 0

/-- Longest leading digit run, `none` when there is none. -/
def parseDigits (cs : List Char) : Option ℕ :=
  let ds := cs.takeWhile (fun c => c.isDigit)
  if ds.isEmpty then none else some (digitsVal ds)

/-- JavaScript `parseInt(s, 10)`: optional whitespace, optional sign, then
the longest digit prefix; `NaN` (here `none`) when no digit follows. -/
def parseIntChars (cs : List Char) : Option ℤ :=
  match cs.dropWhile isWsChar with
  | '-' :: rest => (parseDigits rest).map (fun n => -(n : ℤ))
  | '+' :: rest => (parseDigits rest).map (fun n => (n : ℤ))
  | other => (parseDigits other).map (fun n => (n : ℤ))

/-- JavaScript `parseInt(s, 10)` on a string. -/
def parseIntJS (s : String) : Option ℤ :=
  parseIntChars s.toList

/-- Signed exponent after `e`/`E`; an unusable exponent is ignored
(`parseFloat("1e")` is `1`). -/
def expVal (cs : List Char) : ℤ :=
  match cs with
  | '-' :: rest => (match parseDigits rest with | some n => -(n : ℤ) | none => 0)
  | '+' :: rest => (match parseDigits rest with | some n => (n : ℤ) | none => 0)
  | other => (match parseDigits other with | some n => (n : ℤ) | none => 0)

/-- Unsigned decimal mantissa with optional fraction and exponent;
`none` when not a single mantissa digit is present. -/
def parseFloatMag (cs : List Char) : Option ℚ :=
  let intDs := cs.takeWhile (fun c => c.isDigit)
  let rest1 := cs.drop intDs.length
  let fracDs :=
    match rest1 with
    | '.' :: r => r.takeWhile (fun c => c.isDigit)
    | _ => []
  let rest2 :=
    match rest1 with
    | '.' :: r => r.drop fracDs.length
    | _ => rest1
  if intDs.isEmpty ∧ fracDs.isEmpty then none
  else
    let e : ℤ :=
      match rest2 with
      | 'e' :: r => expVal r
      | 'E' :: r => expVal r
      | _ => 0
    some (((digitsVal intDs : ℚ) +
      (digitsVal fracDs : ℚ) / (10 : ℚ) ^ fracDs.length) * (10 : ℚ) ^ e)

/-- JavaScript `parseFloat(s)` restricted to finite decimal literals. -/
def parseFloatJS (s : String) : Option ℚ :=
  match s.toList.dropWhile isWsChar with
  | '-' :: rest => (parseFloatMag rest).map (fun q => -q)
  | '+' :: rest => parseFloatMag rest
  | other => parseFloatMag other

/-- JavaScript `x || 0` on a number: `NaN` (and `0` itself) becomes `0`. -/
def jsOrZero (r : Option ℚ) : ℚ :=
  match r with
  | none => 0
  | some x => x

/-- The threshold `onChange` handler of `App.tsx`:
`Math.max(0, Math.min(1, (parseFloat(v) || 0) / 100))`. -/
def thresholdStored (v : String) : ℚ :=
  max 0 (min 1 (jsOrZero (parseFloatJS v) / 100))

/-- The period `onChange` handler of `App.tsx`:
`Math.max(1, Math.min(90, parseInt(v || '0', 10)))`; `none` is the `NaN`
that `Math.max`/`Math.min` propagate. -/
def periodStored (v : String) : Option ℤ :=
  (parseIntJS (if v = "" then "0" else v)).map (fun n => max 1 (min 90 n))

/-- The guard `onChange` handler of `App.tsx`:
`Math.max(0, Math.min(90, parseInt(v || '0', 10)))`. -/
def guardStored (v : String) : Option ℤ :=
  (parseIntJS (if v = "" then "0" else v)).map (fun n => max 0 (min 90 n))

/-- C8 counterexample: on the non-numeric entry `"x"` the period handler
stores `NaN` (modelled `none`), not an integer in `[1, 90]`; the claim
that every entered string yields a stored period in range is false. -/
theorem period_handler_counterexample :
    ¬ ∃ n : ℤ, periodStored "x" = some n ∧ 1 ≤ n ∧ n ≤ 90 := by
  intro h
  obtain ⟨n, hn, _, _⟩ := h
  rw [show periodStored "x" = none from rfl] at hn
  exact Option.noConfusion hn

/-- C8 (amended): the threshold handler stores a value in `[0, 1]` for
every entered string; whenever `parseInt` succeeds on the (empty-defaulted)
entered string, the period handler stores an integer in `[1, 90]` and the
guard handler an integer in `[0, 90]`, so an evaluate request assembled
from such stored values never carries `period ≤ 0` or `guard < 0`.  When
`parseInt` fails — on any entry without a leading digit after the optional
sign, such as `"x"` or the valid number-input entry `".5"` — the handlers
store `NaN` instead (see the counterexample). -/
theorem handlers_store_valid_config (v₁ v₂ v₃ : String) (n₂ n₃ : ℤ)
    (h₂ : parseIntJS (if v₂ = "" then "0" else v₂) = some n₂)
    (h₃ : parseIntJS (if v₃ = "" then "0" else v₃) = some n₃) :
    (0 ≤ thresholdStored v₁ ∧ thresholdStored v₁ ≤ 1) ∧
    (∃ p, periodStored v₂ = some p ∧ 1 ≤ p ∧ p ≤ 90) ∧
    (∃ g, guardStored v₃ = some g ∧ 0 ≤ g ∧ g ≤ 90) := by
  refine ⟨⟨le_max_left 0 _, ?_⟩, ?_, ?_⟩
  · exact max_le (by norm_num) (min_le_left 1 _)
  · refine ⟨max 1 (min 90 n₂), ?_, le_max_left 1 _, ?_⟩
    · rw [periodStored, h₂]; rfl
    · exact max_le (by norm_num) (min_le_left 90 _)
  · refine ⟨max 0 (min 90 n₃), ?_, le_max_left 0 _, ?_⟩
    · rw [guardStored, h₃]; rfl
    · exact max_le (by norm_num) (min_le_left 90 _)

/-- C8 witness: entries `"abc"` (threshold), `"7"` (period) and `""`
(guard) store `0`, `7` and `0` respectively, all in range. -/
theorem handlers_store_valid_config_at_example :
    ((0 : ℚ) ≤ thresholdStored "abc" ∧ thresholdStored "abc" ≤ 1) ∧
    (∃ p, periodStored "7" = some p ∧ 1 ≤ p ∧ p ≤ 90) ∧
    (∃ g, guardStored "" = some g ∧ 0 ≤ g ∧ g ≤ 90) :=
  handlers_store_valid_config "abc" "7" "" 7 0 (by rfl) (by rfl)

/-! ## `api.evaluate` (`src/ui/src/api.ts`)

`api.evaluate` begins with
`args.vecinos = args.vecinos.replaceAll("\n", ",").replaceAll(" ", ",").replaceAll(",,", ",")`
before calling `httpPost`, although its parameter type declares
`vecinos?: string`.  We model the dynamic value of `vecinos` as a
JavaScript value that can be `undefined`, a string, or an array (the
`useState<string[]>([])` initial state that `App.tsx` passes); calling
`replaceAll` on a non-string throws a `TypeError`, modelled as the
`Except.error` branch, in which case no request reaches `httpPost`.
-/

/-- Dynamic value of the `vecinos` argument. -/
inductive JSVal where
  | undef
  | str (s : String)
  | arr (xs : List String)
deriving DecidableEq, Repr

/-- A JavaScript runtime exception. -/
inductive JSException where
  | typeError
deriving DecidableEq, Repr

/-- The argument record of `api.evaluate` (the fields the model needs). -/
structure EvalArgs where
  site_att : String
  input_date : String
  vecinos : JSVal
deriving DecidableEq, Repr

/-- The `replaceAll` chain of `api.evaluate`:
newlines and spaces to commas, then `",,"` to `","`. -/
def normalizeNeighbors (s : String) : String :=
  ((s.replace "\n" ",").replace " " ",").replace ",," ","

/-- `api.evaluate` up to the point where the HTTP request is issued:
evaluating `args.vecinos.replaceAll(...)` throws a `TypeError` unless
`vecinos` is a string; only the `ok` branch reaches `httpPost`. -/
def evaluateRequest (a : EvalArgs) : Except JSException EvalArgs :=
  match a.vecinos with
  | JSVal.str s => Except.ok { a with vecinos := JSVal.str (normalizeNeighbors s) }
  | _ => Except.error JSException.typeError

/-- C9: whenever `vecinos` is not a string — `undefined`, or the initial
empty-array state `App.tsx` passes — `api.evaluate` throws a `TypeError`
and no `/api/evaluate` request is produced. -/
theorem evaluateRequest_typeError (a : EvalArgs)
    (h : ∀ s, a.vecinos ≠ JSVal.str s) :
    evaluateRequest a = Except.error JSException.typeError := by
  obtain ⟨site, date, v⟩ := a
  cases v with
  | undef => rfl
  | str s => exact absurd rfl (h s)
  | arr xs => rfl

/-- C9 witness: the initial state of `App.tsx` passes the empty array, and
the request construction throws. -/
theorem evaluateRequest_typeError_at_example :
    evaluateRequest
        { site_att := "SITE01", input_date := "2024-01-01",
          vecinos := JSVal.arr [] } =
      Except.error JSException.typeError :=
  evaluateRequest_typeError
    { site_att := "SITE01", input_date := "2024-01-01", vecinos := JSVal.arr [] }
    (fun _ hs => JSVal.noConfusion hs)

/-! ## `withinWindow` (`src/unnamed/part_000`, `src/unnamed/part_001`)

The chart helper
`withinWindow(rows, xKey, min?, max?)` returns `rows` unchanged when the
list is empty or both bounds are falsy, and otherwise filters: each row's
`xKey` value is turned into a timestamp `t` (`Date.parse` for strings, the
number itself for numbers, `NaN` otherwise); rows with `NaN` are kept, the
rest must satisfy `t >= minT && t <= maxT` where an absent bound is
`-Infinity`/`+Infinity`.

The `xKey` lookup and `Date.parse` are abstracted into the row's stored
parse result (`none` is `NaN`); a bound is `absent` (JS `undefined` or the
falsy empty string) or `given` with its `Date.parse` result.
-/

/-- The x-value of a row, as the timestamp computation of `withinWindow`
sees it: a string with its `Date.parse` result, a number, or any other
value (which yields `NaN`). -/
inductive XVal where
  | str (parsed : Option ℤ)
  | num (value : Option ℤ)
  | other
deriving DecidableEq, Repr

/-- A chart row: its x-value plus an opaque payload. -/
structure ChartRow where
  x : XVal
  payload : ℕ
deriving DecidableEq, Repr

/-- The timestamp `t` computed for a row (`none` is `NaN`). -/
def rowT (r : ChartRow) : Option ℤ :=
  match r.x with
  | XVal.str p => p
  | XVal.num v => v
  | XVal.other => none

/-- A bound argument of `withinWindow`: absent (`undefined` or the falsy
`""`), or a present date string with its `Date.parse` result. -/
inductive Bound where
  | absent
  | given (parsed : Option ℤ)
deriving DecidableEq, Repr

/-- `t >= minT` with `minT` the lower bound (`-Infinity` when absent,
`NaN` comparisons false). -/
def jsGeMin (t : ℤ) (b : Bound) : Bool :=
  match b with
  | Bound.absent => true
  | Bound.given (some m) => decide (m ≤ t)
  | Bound.given none => false

/-- `t <= maxT` with `maxT` the upper bound (`+Infinity` when absent,
`NaN` comparisons false). -/
def jsLeMax (t : ℤ) (b : Bound) : Bool :=
  match b with
  | Bound.absent => true
  | Bound.given (some m) => decide (t ≤ m)
  | Bound.given none => false

/-- The `withinWindow` helper of the chart components. -/
def withinWindow (rows : List ChartRow) (minB maxB : Bound) : List ChartRow :=
  if rows = [] then rows
  else if minB = Bound.absent ∧ maxB = Bound.absent then rows
  else rows.filter (fun r =>
    match rowT r with
    | none => true
    | some t => jsGeMin t minB && jsLeMax t maxB)

/-- The row-keeping predicate as the claim states it, over the parsed
bounds (`none` = no bound): unparseable rows are kept; a parsed timestamp
must lie inclusively between the bounds that are present. -/
def keepSpec (mi ma : Option ℤ) (r : ChartRow) : Bool :=
  match rowT r with
  | none => true
  | some t =>
      (match mi with
        | none => true
        | some m => decide (m ≤ t)) &&
      (match ma with
        | none => true
        | some m => decide (t ≤ m))

/-- Relation between a bound argument and the timestamp the claim speaks
about: an absent bound has none, a present bound must parse. -/
def boundRepr (b : Bound) (o : Option ℤ) : Prop :=
  (b = Bound.absent ∧ o = none) ∨ (∃ m, b = Bound.given (some m) ∧ o = some m)

/-- C10: with both bounds absent `withinWindow` returns the row list
unchanged, and in general (for bounds that are absent or parse to
timestamps) it returns, in original order, exactly the rows whose
timestamp lies inclusively within the present bounds together with every
row whose x-value does not parse. -/
theorem withinWindow_filter_spec (rows : List ChartRow) (minB maxB : Bound)
    (mi ma : Option ℤ) (hmin : boundRepr minB mi) (hmax : boundRepr maxB ma) :
    (minB = Bound.absent ∧ maxB = Bound.absent →
      withinWindow rows minB maxB = rows) ∧
    withinWindow rows minB maxB = rows.filter (keepSpec mi ma) := by
  have hpt : ∀ r, (fun r =>
      match rowT r with
      | none => true
      | some t => jsGeMin t minB && jsLeMax t maxB) r = keepSpec mi ma r := by
    intro r
    rcases hmin with ⟨hb, ho⟩ | ⟨m, hb, ho⟩ <;>
      rcases hmax with ⟨hb2, ho2⟩ | ⟨m2, hb2, ho2⟩ <;>
        subst hb <;> subst ho <;> subst hb2 <;> subst ho2 <;>
          cases hrt : rowT r <;> simp [keepSpec, jsGeMin, jsLeMax, hrt]
  constructor
  · intro h
    obtain ⟨hb1, hb2⟩ := h
    subst hb1
    subst hb2
    unfold withinWindow
    split_ifs with h0 h1
    · rfl
    · rfl
    · exact absurd ⟨rfl, rfl⟩ h1
  · unfold withinWindow
    split_ifs with h0 h1
    · subst h0
      rfl
    · rcases hmin with ⟨_, ho⟩ | ⟨m, hbm, _⟩
      · rcases hmax with ⟨_, ho2⟩ | ⟨m2, hbm2, _⟩
        · subst ho
          subst ho2
          symm
          apply List.filter_eq_self.mpr
          intro a _
          cases h : rowT a <;> simp [keepSpec, h]
        · rw [h1.2] at hbm2
          exact Bound.noConfusion hbm2
      · rw [h1.1] at hbm
        exact Bound.noConfusion hbm
    · exact List.filter_congr (fun a _ => hpt a)

/-- C10 witness: three rows (timestamps 3 and 10, one unparseable) with
lower bound 5 and no upper bound keep the unparseable row and the row at
10, in order. -/
theorem withinWindow_filter_spec_at_example :
    ((Bound.given (some 5) = Bound.absent ∧ Bound.absent = Bound.absent →
      withinWindow
          [{ x := XVal.str (some 3), payload := 0 },
            { x := XVal.other, payload := 1 },
            { x := XVal.num (some 10), payload := 2 }]
          (Bound.given (some 5)) Bound.absent =
        [{ x := XVal.str (some 3), payload := 0 },
          { x := XVal.other, payload := 1 },
          { x := XVal.num (some 10), payload := 2 }]) ∧
    withinWindow
        [{ x := XVal.str (some 3), payload := 0 },
          { x := XVal.other, payload := 1 },
          { x := XVal.num (some 10), payload := 2 }]
        (Bound.given (some 5)) Bound.absent =
      List.filter (keepSpec (some 5) none)
        [{ x := XVal.str (some 3), payload := 0 },
          { x := XVal.other, payload := 1 },
          { x := XVal.num (some 10), payload := 2 }]) :=
  withinWindow_filter_spec
    [{ x := XVal.str (some 3), payload := 0 },
      { x := XVal.other, payload := 1 },
      { x := XVal.num (some 10), payload := 2 }]
    (Bound.given (some 5)) Bound.absent (some 5) none
    (Or.inr ⟨5, rfl, rfl⟩) (Or.inl ⟨rfl, rfl⟩)

end RanTool
